import Mathlib

/-!
Verification of the OContext context-assembly pipeline (src/src/extension.ts).

The TypeScript source is shallowly embedded: the filesystem / editor
environment that the code queries (fs.promises.stat, fs.promises.readFile,
vscode.workspace.findFiles, the workspace root, the process working
directory) is a record of pure functions `FS`; byte buffers are `List Nat`;
UTF-8 decoding (Buffer.toString) is an explicit function argument; the
third-party npm `ignore` matcher compiled from the ignore-file content is an
explicit function argument `ignores : String → String → Bool` (content ↦
relative path ↦ ignored?).  Node's posix `path.relative` (which resolves both
arguments against the process cwd and then computes a `..`-prefixed relative
path) is modelled segment-wise by `posixResolve` / `nodeRel`.
-/

/-- Result of fs.promises.stat / fs.statSync on a path: success carries
`isDirectory()` and `size`; failure is the thrown error. -/
inductive StatResult where
  | ok (isDir : Bool) (size : Nat)
  | err
deriving DecidableEq, Repr

/-- The external environment read by the pipeline: workspace root
(vscode.workspace.workspaceFolders?[0]), process cwd (as the segment list of
an absolute path), stat, readFile (none = read throws: absent/unreadable),
and vscode.workspace.findFiles over a directory with pattern "**/*". -/
structure FS where
  wsRoot : Option String
  cwd : List String
  stat : String → StatResult
  readFile : String → Option (List Nat)
  findFiles : String → List String

/-- One entry of the `files` array in buildPromptToFile / buildPrompt:
`{ abs: string; rel: string }`. -/
structure FileEntry where
  abs : String
  rel : String
deriving DecidableEq, Repr

/- ### Node posix path model (path.relative, path.join) -/

/-- Split a path string at '/' characters (character-level, as Node's path
implementation scans the string). -/
def splitSegsAux : List Char → List Char → List String
  | [], cur => [String.mk cur.reverse]
  | c :: rest, cur =>
    if c = '/' then String.mk cur.reverse :: splitSegsAux rest []
    else splitSegsAux rest (c :: cur)

/-- Path segments of a path string: split at '/', dropping empty and "."
segments (posix normalization of separators and `.`). -/
def splitSegs (s : String) : List String :=
  (splitSegsAux s.data []).filter (fun seg => seg ≠ "" && seg ≠ ".")

/-- Collapse ".." segments of an absolute path against the segments before
them; a ".." above the root is dropped (posix resolve semantics). -/
def collapseDots (segs : List String) : List String :=
  segs.foldl (fun acc seg => if seg = ".." then acc.dropLast else acc ++ [seg]) []

/-- Does the path string start with '/' (posix absolute)? -/
def isAbs (s : String) : Bool := s.data.head? = some '/'

/-- posix path.resolve(p) relative to the process cwd (given as the segment
list of an absolute path): an absolute path is normalized; a relative path is
appended to the cwd and normalized.  Returns the segment list of the
resolved absolute path. -/
def posixResolve (cwd : List String) (p : String) : List String :=
  if isAbs p then collapseDots (splitSegs p)
  else collapseDots (cwd ++ splitSegs p)

/-- Drop the common leading segments of two segment lists, returning the two
remainders. -/
def dropCommon : List String → List String → List String × List String
  | a :: as, b :: bs => if a = b then dropCommon as bs else (a :: as, b :: bs)
  | as, bs => (as, bs)

/-- Join segments with '/' (no leading slash: path.relative output). -/
def joinSegs : List String → String
  | [] => ""
  | [s] => s
  | s :: rest => s ++ "/" ++ joinSegs rest

/-- Node posix path.relative(from, to) with the given process cwd: resolve
both against the cwd, drop the common leading segments, then one ".." per
remaining from-segment followed by the remaining to-segments. -/
def nodeRel (cwd : List String) (rfrom rto : String) : String :=
  let f := posixResolve cwd rfrom
  let t := posixResolve cwd rto
  let (fr, tr) := dropCommon f t
  joinSegs (fr.map (fun _ => "..") ++ tr)

/-- Node path.join(root, name) for the use site in buildIgnoreFilter (root is
a nonempty absolute directory path without trailing slash). -/
def pathJoin (a b : String) : String := a ++ "/" ++ b

/- ### buildIgnoreFilter (extension.ts lines 7-17) -/

/-- buildIgnoreFilter(root): read root/.gitignore; on success the returned
filter is `p ↦ !ig.ignores(path.relative(root, p))` where `ig` is the npm
`ignore` matcher compiled from the file content (passed in as `ignores`);
if the read throws (absent/unreadable) return the allow-everything filter. -/
def buildIgnoreFilter (fs : FS) (utf8 : List Nat → String)
    (ignores : String → String → Bool) (root : String) : String → Bool :=
  match fs.readFile (pathJoin root ".gitignore") with
  | some bytes => fun p => !(ignores (utf8 bytes) (nodeRel fs.cwd root p))
  | none => fun _ => true

/- ### looksBinary (extension.ts lines 20-27) -/

/-- looksBinary(buffer): scan indices 0 ≤ i < min(buffer.length, 8192) and
return true on the first zero byte, false if none is found. -/
def looksBinary (buffer : List Nat) : Bool :=
  (buffer.take (min buffer.length 8192)).any (fun b => b == 0)

/- ### expansion loop (extension.ts lines 168-185, identical in 269-286) -/

/-- The `for (const p of fsPaths)` expansion loop: stat each input; a
directory contributes its findFiles results filtered through `allow`; a
non-directory that stats successfully is pushed directly (not filtered);
a stat failure is logged and skipped.  `rel` is path.relative(root, ·). -/
def expandFiles (fs : FS) (root : String) (allow : String → Bool) :
    List String → List FileEntry
  | [] => []
  | p :: rest =>
    (match fs.stat p with
     | .ok true _ =>
       ((fs.findFiles p).filter allow).map (fun u => ⟨u, nodeRel fs.cwd root u⟩)
     | .ok false _ => [⟨p, nodeRel fs.cwd root p⟩]
     | .err => []) ++ expandFiles fs root allow rest

/- ### preflight (extension.ts lines 190-209) -/

/-- The size contributed by one entry to the preflight estimate:
fs.statSync(abs).size, with a stat failure contributing 0. -/
def statSizeOrZero (fs : FS) (abs : String) : Nat :=
  match fs.stat abs with
  | .ok _ sz => sz
  | .err => 0

/-- estimatedBytes: the sum over the entries of their stat sizes. -/
def estimatedBytesOf (fs : FS) (files : List FileEntry) : Nat :=
  (files.map (fun f => statSizeOrZero fs f.abs)).sum

/-- The preflight test `totalFiles > 1000 || estimatedMB > 10`.  In the
source estimatedMB = estimatedBytes / 1024 / 1024 in IEEE double arithmetic;
division by the power of two 2^20 is exact for any realizable size, so the
float comparison equals the integer comparison estimatedBytes > 10 * 2^20. -/
def requiresConfirmationOf (fs : FS) (files : List FileEntry) : Bool :=
  decide (files.length > 1000) || decide (estimatedBytesOf fs files > 10 * 1024 * 1024)

/-- The spec-level PreflightDecision record derived from lines 190-209. -/
structure PreflightDecision where
  totalFiles : Nat
  estimatedBytes : Nat
  requiresConfirmation : Bool
deriving DecidableEq, Repr

/-- PreflightGate.evaluate: the three values lines 190-209 compute. -/
def preflightEvaluate (fs : FS) (files : List FileEntry) : PreflightDecision :=
  { totalFiles := files.length
    estimatedBytes := estimatedBytesOf fs files
    requiresConfirmation := requiresConfirmationOf fs files }

/- ### assembly (extension.ts lines 213-253 and 290-308) -/

/-- The header written first (lines 217-221): title, fenced structure block
listing every entry's rel joined by newlines, then the File Contents
heading. -/
def headerWrite (files : List FileEntry) : String :=
  "# Context Generation Request\n\n## Project Structure:\n```\n"
    ++ String.intercalate "\n" (files.map FileEntry.rel)
    ++ "\n```\n\n## File Contents:\n\n"

/-- The sequence of out.write calls the per-file loop (lines 224-246) issues
for one entry: read throws → one write of the unreadable marker section;
binary → continue (no write); text → three writes (section header, decoded
content, footer). -/
def fileWrites (fs : FS) (utf8 : List Nat → String) (e : FileEntry) : List String :=
  match fs.readFile e.abs with
  | some buffer =>
    if looksBinary buffer then []
    else ["### " ++ e.rel ++ "\n```\n", utf8 buffer, "\n```\n\n"]
  | none => ["### " ++ e.rel ++ "\n```\n[unreadable]\n```\n\n"]

/-- All writes issued to the stream for a file list: the header write, then
the per-file writes in entry order. -/
def assembleWrites (fs : FS) (utf8 : List Nat → String) (files : List FileEntry) :
    List String :=
  headerWrite files :: files.flatMap (fileWrites fs utf8)

/-- Concatenation of an ordered list of writes: the byte content of the
output stream. -/
def concatAll (l : List String) : String := l.foldr (fun a b => a ++ b) ""

/-- The files list both buildPromptToFile and buildPrompt compute (lines
160-185 and 261-286 are identical): root = workspace root or "", allow =
buildIgnoreFilter(root) when root is nonempty else allow-all, then the
expansion loop. -/
def promptFiles (fs : FS) (utf8 : List Nat → String)
    (ignores : String → String → Bool) (fsPaths : List String) : List FileEntry :=
  let root := fs.wsRoot.getD ""
  let allow := if root = "" then fun _ => true else buildIgnoreFilter fs utf8 ignores root
  expandFiles fs root allow fsPaths

/-- buildPromptToFile(fsPaths, outputFile): expansion, then the preflight
gate (when it fires and the user answers anything but "Yes" the function
returns before fs.createWriteStream, so no output file exists); otherwise
the ordered writes issued to the stream.  `confirm` is the user's dialog
answer (true = "Yes"); `none` models the bail-out with no file created. -/
def buildPromptToFile (fs : FS) (utf8 : List Nat → String)
    (ignores : String → String → Bool) (fsPaths : List String) (confirm : Bool) :
    Option (List String) :=
  let files := promptFiles fs utf8 ignores fsPaths
  if requiresConfirmationOf fs files && !confirm then none
  else some (assembleWrites fs utf8 files)

/-- The string a non-skipped entry appends to `prompt` in buildPrompt
(lines 294-308). -/
def promptChunk (fs : FS) (utf8 : List Nat → String) (e : FileEntry) : String :=
  match fs.readFile e.abs with
  | some buffer =>
    if looksBinary buffer then ""
    else "### " ++ e.rel ++ "\n```\n" ++ utf8 buffer ++ "\n```\n\n"
  | none => "### " ++ e.rel ++ "\n```\n[unreadable]\n```\n\n"

/-- The `prompt +=` accumulation loop of buildPrompt. -/
def promptLoop (fs : FS) (utf8 : List Nat → String) :
    List FileEntry → String → String
  | [], acc => acc
  | e :: rest, acc => promptLoop fs utf8 rest (acc ++ promptChunk fs utf8 e)

/-- buildPrompt(fsPaths): the in-memory variant (lines 258-312); same
expansion, no preflight gate, string accumulation starting from the same
header. -/
def buildPrompt (fs : FS) (utf8 : List Nat → String)
    (ignores : String → String → Bool) (fsPaths : List String) : String :=
  let files := promptFiles fs utf8 ignores fsPaths
  promptLoop fs utf8 files (headerWrite files)

example : nodeRel ["home", "user"] "" "/tmp/a.txt" = "../../tmp/a.txt" := by decide
example : nodeRel ["w"] "/r" "/r/a.txt" = "a.txt" := by decide
example : nodeRel ["w"] "/r/s" "/r/t/x" = "../t/x" := by decide
example : looksBinary [1, 0, 2] = true := by decide
example : looksBinary [1, 2, 3] = false := by decide

/- ### Concrete environments used by witnesses and counterexamples -/

/-- An environment in which every path stats as a 1-byte regular file. -/
def fsAllSmall : FS :=
  { wsRoot := none, cwd := [], stat := fun _ => .ok false 1,
    readFile := fun _ => none, findFiles := fun _ => [] }

/-- 1001 entries with pairwise distinct absolute paths. -/
def filesThousandOne : List FileEntry :=
  (List.range 1001).map (fun i => ⟨String.mk (List.replicate i 'a'), ""⟩)

/-- Five entries. -/
def filesFive : List FileEntry :=
  [⟨"a0", ""⟩, ⟨"a1", ""⟩, ⟨"a2", ""⟩, ⟨"a3", ""⟩, ⟨"a4", ""⟩]

/-- An environment in which the five entries of filesFive stat as regular
files of sizes 224, 200, 200, 200, 200 — totalling 1 KB (1024 bytes). -/
def fsFiveK : FS :=
  { wsRoot := none, cwd := [],
    stat := fun p => if p = "a0" then .ok false 224 else .ok false 200,
    readFile := fun _ => none, findFiles := fun _ => [] }

/-- An environment with no readable files at all (in particular no
.gitignore anywhere). -/
def fsNoGit : FS :=
  { wsRoot := some "/r", cwd := ["w"], stat := fun _ => .err,
    readFile := fun _ => none, findFiles := fun _ => [] }

/-- An environment whose process cwd is /home/user, with every path statting
as a small regular file. -/
def fsHomeUser : FS :=
  { wsRoot := none, cwd := ["home", "user"], stat := fun _ => .ok false 5,
    readFile := fun _ => none, findFiles := fun _ => [] }

/-- An environment holding one small readable text file "a" ("hi"). -/
def fsSmallText : FS :=
  { wsRoot := none, cwd := ["w"],
    stat := fun p => if p = "a" then .ok false 2 else .err,
    readFile := fun p => if p = "a" then some [104, 105] else none,
    findFiles := fun _ => [] }

/-- An environment holding one readable file "b.bin" whose bytes [0, 1, 2]
start with a NUL. -/
def fsOneBinary : FS :=
  { wsRoot := none, cwd := ["w"],
    stat := fun p => if p = "b.bin" then .ok false 3 else .err,
    readFile := fun p => if p = "b.bin" then some [0, 1, 2] else none,
    findFiles := fun _ => [] }

/-- An environment holding one 20 MB regular file named "big" and no
workspace root. -/
def fsBig : FS :=
  { wsRoot := none, cwd := ["w"],
    stat := fun p => if p = "big" then .ok false 20000000 else .err,
    readFile := fun _ => none, findFiles := fun _ => [] }

/- ### Helper lemmas -/

lemma concatAll_cons (a : String) (l : List String) :
    concatAll (a :: l) = a ++ concatAll l := rfl

lemma nat_min_self_right (a b : Nat) : min a (min a b) = min a b := by
  rw [← Nat.min_assoc, Nat.min_self]

lemma mem_take_iff_get : ∀ (l : List Nat) (n : Nat) (a : Nat),
    a ∈ l.take n ↔ ∃ i, i < min l.length n ∧ l.get? i = some a
  | [], n, a => by simp
  | _ :: _, 0, a => by simp
  | x :: xs, n + 1, a => by
    simp only [List.take_succ_cons, List.mem_cons, mem_take_iff_get xs n a]
    constructor
    · rintro (rfl | ⟨i, hi, hg⟩)
      · exact ⟨0, Nat.lt_min.mpr ⟨Nat.succ_pos _, Nat.succ_pos _⟩, by simp⟩
      · exact ⟨i + 1,
          by simpa [Nat.succ_min_succ, Nat.succ_lt_succ_iff] using hi,
          by simpa using hg⟩
    · rintro ⟨i, hi, hg⟩
      cases i with
      | zero => exact Or.inl (by simpa using hg.symm)
      | succ j =>
        refine Or.inr ⟨j, ?_, by simpa using hg⟩
        simpa [Nat.succ_min_succ, Nat.succ_lt_succ_iff] using hi

lemma looksBinary_eq_take (buf : List Nat) :
    looksBinary buf = (buf.take 8192).any (fun b => b == 0) := by
  unfold looksBinary
  congr 1
  rw [List.take_eq_take]
  omega

lemma concatAll_append (l1 l2 : List String) :
    concatAll (l1 ++ l2) = concatAll l1 ++ concatAll l2 := by
  induction l1 with
  | nil => simp [concatAll, String.empty_append]
  | cons a l ih =>
    rw [List.cons_append, concatAll_cons, concatAll_cons, ih, String.append_assoc]

lemma concatAll_singleton (s : String) : concatAll [s] = s := by
  rw [concatAll_cons]
  show s ++ concatAll [] = s
  rw [show concatAll [] = "" from rfl, String.append_empty]

/- ### Claim theorems -/

/-- C1: a non-directory input that stats successfully is appended directly
as a FileEntry without consulting the ignore filter — so it appears in the
output even when the filter rejects it — and the filter is consulted only on
files enumerated from directory inputs: the expansion result depends on the
filter only through its values on those enumerated files. -/
theorem claim_C1_explicit_file_bypasses_ignore :
    (∀ (fs : FS) (root : String) (allow : String → Bool) (fsPaths : List String)
        (p : String) (sz : Nat),
        fs.stat p = .ok false sz → p ∈ fsPaths → allow p = false →
        FileEntry.mk p (nodeRel fs.cwd root p) ∈ expandFiles fs root allow fsPaths)
    ∧ (∀ (fs : FS) (root : String) (a1 a2 : String → Bool) (fsPaths : List String),
        (∀ d ∈ fsPaths, ∀ sz : Nat, fs.stat d = .ok true sz →
          ∀ u ∈ fs.findFiles d, a1 u = a2 u) →
        expandFiles fs root a1 fsPaths = expandFiles fs root a2 fsPaths) := by
  constructor
  · intro fs root allow fsPaths p sz hstat hmem _
    induction fsPaths with
    | nil => cases hmem
    | cons q rest ih =>
      rw [expandFiles]
      rcases List.mem_cons.mp hmem with rfl | hmem'
      · rw [hstat]
        exact List.mem_append_left _ (List.mem_singleton_self _)
      · exact List.mem_append_right _ (ih hmem')
  · intro fs root a1 a2 fsPaths hagree
    induction fsPaths with
    | nil => rfl
    | cons q rest ih =>
      rw [expandFiles, expandFiles,
        ih (fun d hd => hagree d (List.mem_cons_of_mem _ hd))]
      congr 1
      cases hq : fs.stat q with
      | ok isDir szq =>
        cases isDir with
        | true =>
          have hfilter : (fs.findFiles q).filter a1 = (fs.findFiles q).filter a2 :=
            List.filter_congr (fun u hu => hagree q (List.mem_cons_self _ _) szq hq u hu)
          rw [hfilter]
        | false => rfl
      | err => rfl

/-- C1 witness: a single-file input rejected by the filter still appears. -/
theorem wit_C1_explicit_file_bypasses_ignore :
    FileEntry.mk "a" (nodeRel fsAllSmall.cwd "/r" "a")
      ∈ expandFiles fsAllSmall "/r" (fun _ => false) ["a"] :=
  claim_C1_explicit_file_bypasses_ignore.1 fsAllSmall "/r" (fun _ => false) ["a"]
    "a" 1 rfl (by simp) rfl

/-- C3: the concatenated stream output starts with the structure section — a
fenced block listing every entry's rel, one per line, in expander order,
independent of any per-file read or binary outcome — and an entry whose
bytes are classified binary contributes no writes at all while its rel still
appears among the listed paths. -/
theorem claim_C3_structure_lists_all_binary_omitted (fs : FS)
    (utf8 : List Nat → String) (files : List FileEntry) :
    (∃ rest : String,
      concatAll (assembleWrites fs utf8 files)
        = "# Context Generation Request\n\n## Project Structure:\n```\n"
          ++ String.intercalate "\n" (files.map FileEntry.rel)
          ++ "\n```\n\n## File Contents:\n\n" ++ rest)
    ∧ ∀ e ∈ files, ∀ buffer : List Nat,
        fs.readFile e.abs = some buffer → looksBinary buffer = true →
        fileWrites fs utf8 e = [] ∧ e.rel ∈ files.map FileEntry.rel := by
  constructor
  · refine ⟨concatAll (files.flatMap (fileWrites fs utf8)), ?_⟩
    rw [assembleWrites, concatAll_cons, headerWrite, String.append_assoc,
      String.append_assoc]
  · intro e he buffer hread hbin
    refine ⟨?_, List.mem_map_of_mem _ he⟩
    simp [fileWrites, hread, hbin]

/-- C3 witness: an environment whose only file is binary — no writes for it,
path still listed. -/
theorem wit_C3_structure_lists_all_binary_omitted :
    fileWrites fsOneBinary (fun _ => "") ⟨"b.bin", "b.bin"⟩ = []
    ∧ "b.bin" ∈ ([⟨"b.bin", "b.bin"⟩] : List FileEntry).map FileEntry.rel :=
  (claim_C3_structure_lists_all_binary_omitted fsOneBinary (fun _ => "")
      [⟨"b.bin", "b.bin"⟩]).2 ⟨"b.bin", "b.bin"⟩ (by simp) [0, 1, 2] rfl rfl

/-- C5: an entry whose content read fails contributes exactly the section
header plus the literal "[unreadable]" marker in a fenced block, and the
entries before and after it are processed normally — the run continues. -/
theorem claim_C5_unreadable_marker_continues (fs : FS) (utf8 : List Nat → String)
    (pre post : List FileEntry) (e : FileEntry)
    (h : fs.readFile e.abs = none) :
    concatAll (assembleWrites fs utf8 (pre ++ e :: post))
      = headerWrite (pre ++ e :: post)
        ++ (concatAll (pre.flatMap (fileWrites fs utf8))
        ++ (("### " ++ e.rel ++ "\n```\n[unreadable]\n```\n\n")
        ++ concatAll (post.flatMap (fileWrites fs utf8)))) := by
  rw [assembleWrites, concatAll_cons, List.flatMap_append, List.flatMap_cons,
    concatAll_append, concatAll_append]
  have hw : fileWrites fs utf8 e = ["### " ++ e.rel ++ "\n```\n[unreadable]\n```\n\n"] := by
    simp [fileWrites, h]
  rw [hw, concatAll_singleton, String.append_assoc]

/-- C8 counterexample: with process cwd /home/user, an empty root and the
single non-directory input /tmp/a.txt, the produced entry's rel is
"../../tmp/a.txt" (Node path.relative resolves the empty root against the
cwd), not the path as given "/tmp/a.txt". -/
theorem cex_C8_empty_root_not_path_as_given :
    expandFiles fsHomeUser "" (fun _ => true) ["/tmp/a.txt"]
      = [⟨"/tmp/a.txt", "../../tmp/a.txt"⟩]
    ∧ ("../../tmp/a.txt" : String) ≠ "/tmp/a.txt" := by decide

/-- C8 (amended): every FileEntry's rel is path.relative(root, abs) for the
run's single root; when the root is the empty string, path.relative resolves
it to the process working directory, so rel degrades to the path relative to
the cwd (e.g. cwd /home/user, input /tmp/a.txt ↦ ../../tmp/a.txt), not to
the absolute path as given; no error is raised. -/
theorem claim_C8_rel_is_root_relative_cwd_fallback :
    (∀ (fs : FS) (root : String) (allow : String → Bool) (p : String) (sz : Nat),
      fs.stat p = .ok false sz →
      expandFiles fs root allow [p] = [⟨p, nodeRel fs.cwd root p⟩])
    ∧ (∀ cwd : List String, posixResolve cwd "" = collapseDots cwd)
    ∧ nodeRel ["home", "user"] "" "/tmp/a.txt" = "../../tmp/a.txt" := by
  refine ⟨?_, ?_, by decide⟩
  · intro fs root allow p sz hstat
    simp [expandFiles, hstat]
  · intro cwd
    unfold posixResolve
    rw [show isAbs "" = false from rfl]
    rw [show splitSegs "" = [] from rfl, List.append_nil]
    rfl

/-- C8 witness for the amended claim: a concrete non-directory input yields
exactly the path.relative entry. -/
theorem wit_C8_rel_is_root_relative_cwd_fallback :
    expandFiles fsAllSmall "/r" (fun _ => true) ["/r/a.txt"]
      = [⟨"/r/a.txt", nodeRel fsAllSmall.cwd "/r" "/r/a.txt"⟩] :=
  claim_C8_rel_is_root_relative_cwd_fallback.1 fsAllSmall "/r" (fun _ => true)
    "/r/a.txt" 1 rfl

/-- C5 witness: with an unreadable middle entry between two entries the
whole document is still produced, with the marker in the middle. -/
theorem wit_C5_unreadable_marker_continues :
    concatAll (assembleWrites fsNoGit (fun _ => "") ([] ++ (⟨"/r/x", "x"⟩ : FileEntry) :: []))
      = headerWrite ([] ++ (⟨"/r/x", "x"⟩ : FileEntry) :: [])
        ++ (concatAll (([] : List FileEntry).flatMap (fileWrites fsNoGit (fun _ => "")))
        ++ (("### " ++ "x" ++ "\n```\n[unreadable]\n```\n\n")
        ++ concatAll (([] : List FileEntry).flatMap (fileWrites fsNoGit (fun _ => ""))))) :=
  claim_C5_unreadable_marker_continues fsNoGit (fun _ => "") [] [] ⟨"/r/x", "x"⟩ rfl

/-- C2: looksBinary returns true iff some byte among the first
min(length, 8192) bytes of the buffer equals 0x00, and bytes beyond the
first 8192 are never inspected (the result is a function of the first 8192
bytes only).  The embedding is a pure total function, matching "no I/O,
no retained state". -/
theorem claim_C2_looksBinary_nul_scan (buf : List Nat) :
    (looksBinary buf = true ↔ ∃ i, i < min buf.length 8192 ∧ buf.get? i = some 0)
    ∧ looksBinary buf = looksBinary (buf.take 8192) := by
  constructor
  · unfold looksBinary
    rw [List.any_eq_true]
    constructor
    · rintro ⟨x, hx, hbeq⟩
      have hx0 : x = 0 := by simpa using hbeq
      subst hx0
      obtain ⟨i, hi, hg⟩ := (mem_take_iff_get buf _ 0).mp hx
      rw [nat_min_self_right] at hi
      exact ⟨i, hi, hg⟩
    · rintro ⟨i, hi, hg⟩
      refine ⟨0, (mem_take_iff_get buf _ 0).mpr ⟨i, ?_, hg⟩, by simp⟩
      rw [nat_min_self_right]
      exact hi
  · rw [looksBinary_eq_take, looksBinary_eq_take, List.take_take, Nat.min_self]

/-- C2 witness: the scan result on a concrete buffer is unchanged by
truncation to the first 8192 bytes. -/
theorem wit_C2_looksBinary : looksBinary [1, 0] = looksBinary ([1, 0].take 8192) :=
  (claim_C2_looksBinary_nul_scan [1, 0]).2

/-- C4: the preflight decision has totalFiles = entry count, estimatedBytes
= sum of stat sizes (a stat failure contributing 0), requiresConfirmation
exactly when totalFiles > 1000 or estimatedBytes > 10 * 2^20; 1001 distinct
existing files yield true, and 5 files totalling 1 KB yield false. -/
theorem claim_C4_preflight_gate :
    (∀ (fs : FS) (files : List FileEntry),
        (preflightEvaluate fs files).totalFiles = files.length
        ∧ (preflightEvaluate fs files).estimatedBytes
            = (files.map (fun f =>
                match fs.stat f.abs with
                | .ok _ sz => sz
                | .err => 0)).sum
        ∧ (preflightEvaluate fs files).requiresConfirmation
            = (decide (files.length > 1000)
                || decide ((preflightEvaluate fs files).estimatedBytes > 10 * 2 ^ 20)))
    ∧ filesThousandOne.length = 1001
    ∧ (filesThousandOne.map FileEntry.abs).Nodup
    ∧ (∀ e ∈ filesThousandOne, fsAllSmall.stat e.abs ≠ .err)
    ∧ (preflightEvaluate fsAllSmall filesThousandOne).requiresConfirmation = true
    ∧ estimatedBytesOf fsFiveK filesFive = 1024
    ∧ (preflightEvaluate fsFiveK filesFive).requiresConfirmation = false := by
  refine ⟨fun fs files => ⟨rfl, rfl, ?_⟩, ?_, ?_, ?_, ?_, by decide, by decide⟩
  · show requiresConfirmationOf fs files = _
    unfold requiresConfirmationOf
    norm_num [preflightEvaluate]
  · simp [filesThousandOne]
  · rw [filesThousandOne, List.map_map]
    refine (List.nodup_range 1001).map ?_
    intro i j h
    have h2 := congrArg String.data h
    have h3 := congrArg List.length h2
    simpa using h3
  · intro e _
    simp [fsAllSmall]
  · have hlen : filesThousandOne.length = 1001 := by simp [filesThousandOne]
    simp [preflightEvaluate, requiresConfirmationOf, hlen]

/-- C4 witness: the first of the 1001 distinct files exists (stats without
error) in the environment of the 1001-file scenario. -/
theorem wit_C4_preflight_gate :
    fsAllSmall.stat (FileEntry.mk "" "").abs ≠ StatResult.err :=
  claim_C4_preflight_gate.2.2.2.1 ⟨"", ""⟩
    (by
      rw [filesThousandOne]
      refine List.mem_map.mpr ⟨0, List.mem_range.mpr (by norm_num), ?_⟩
      rfl)

/-- C6: if reading root/.gitignore fails (absent or unreadable), the built
filter allows every path (fail-open). -/
theorem claim_C6_ignore_fail_open (fs : FS) (utf8 : List Nat → String)
    (ignores : String → String → Bool) (root p : String)
    (h : fs.readFile (pathJoin root ".gitignore") = none) :
    buildIgnoreFilter fs utf8 ignores root p = true := by
  simp [buildIgnoreFilter, h]

/-- C6 witness: in an environment with no readable .gitignore the filter
allows a concrete path. -/
theorem wit_C6_ignore_fail_open :
    buildIgnoreFilter fsNoGit (fun _ => "") (fun _ _ => true) "/r" "/r/x" = true :=
  claim_C6_ignore_fail_open fsNoGit (fun _ => "") (fun _ _ => true) "/r" "/r/x" rfl

/-- C7: when the preflight gate fires and the user does not answer "Yes",
buildPromptToFile returns before fs.createWriteStream is ever called: no
output file is created, nothing partial is written, and the return is a
plain return (not a thrown error). -/
theorem claim_C7_decline_terminates_cleanly (fs : FS) (utf8 : List Nat → String)
    (ignores : String → String → Bool) (fsPaths : List String)
    (h : requiresConfirmationOf fs (promptFiles fs utf8 ignores fsPaths) = true) :
    buildPromptToFile fs utf8 ignores fsPaths false = none := by
  simp [buildPromptToFile, h]

/-- C7 witness: one 20 MB file trips the gate; declining yields no output. -/
theorem wit_C7_decline_terminates_cleanly :
    buildPromptToFile fsBig (fun _ => "") (fun _ _ => false) ["big"] false = none :=
  claim_C7_decline_terminates_cleanly fsBig (fun _ => "") (fun _ _ => false) ["big"]
    (by decide)

lemma concatAll_fileWrites (fs : FS) (utf8 : List Nat → String) (e : FileEntry) :
    concatAll (fileWrites fs utf8 e) = promptChunk fs utf8 e := by
  cases h : fs.readFile e.abs with
  | none => simp [fileWrites, promptChunk, h, concatAll_singleton]
  | some buffer =>
    cases hb : looksBinary buffer with
    | true => simp [fileWrites, promptChunk, h, hb, concatAll]
    | false =>
      simp [fileWrites, promptChunk, h, hb, concatAll, String.append_assoc,
        String.append_empty]

lemma promptLoop_eq_concat (fs : FS) (utf8 : List Nat → String) :
    ∀ (files : List FileEntry) (acc : String),
      promptLoop fs utf8 files acc = acc ++ concatAll (files.flatMap (fileWrites fs utf8))
  | [], acc => by
    rw [promptLoop]
    show acc = acc ++ ""
    rw [String.append_empty]
  | e :: rest, acc => by
    rw [promptLoop, promptLoop_eq_concat fs utf8 rest, List.flatMap_cons,
      concatAll_append, concatAll_fileWrites, String.append_assoc]

/-- C10: whenever the preflight gate does not require confirmation, the byte
content the streaming buildPromptToFile writes to its output file (the
concatenation of its stream writes) equals the string the in-memory
buildPrompt returns on the same inputs over the same environment. -/
theorem claim_C10_streaming_refines_in_memory (fs : FS) (utf8 : List Nat → String)
    (ignores : String → String → Bool) (fsPaths : List String) (confirm : Bool)
    (h : requiresConfirmationOf fs (promptFiles fs utf8 ignores fsPaths) = false) :
    (buildPromptToFile fs utf8 ignores fsPaths confirm).map concatAll
      = some (buildPrompt fs utf8 ignores fsPaths) := by
  rw [buildPromptToFile, buildPrompt]
  simp [h, assembleWrites, promptLoop_eq_concat, concatAll_cons]

/-- C10 witness: on a one-text-file environment the streamed bytes equal the
in-memory prompt. -/
theorem wit_C10_streaming_refines_in_memory :
    (buildPromptToFile fsSmallText (fun _ => "hi") (fun _ _ => false) ["a"] true).map concatAll
      = some (buildPrompt fsSmallText (fun _ => "hi") (fun _ _ => false) ["a"]) :=
  claim_C10_streaming_refines_in_memory fsSmallText (fun _ => "hi") (fun _ _ => false)
    ["a"] true (by decide)
